import Mathlib

/-!
Verification of the agenteval core against its specification.

This file gives a shallow embedding, in Lean, of the grading/assertion engine
(`src/expect/index.ts`), the eval-context factory (`src/core/context.ts`) and
the trial/suite execution engine (`src/core/runner.ts`) of the agenteval
repository, and proves (or refutes) the specification claims about them.

Modelling conventions:
* JavaScript runtime values are modelled by the inductive `JSValue`
  (`undefined`, `null`, booleans, numbers, strings, arrays, objects); JS
  numbers are modelled as rationals (`ℚ`), which is faithful for every
  comparison the claims exercise (no NaN/Infinity behaviour is at stake).
* Expected values handed to the structural matcher may embed matcher objects
  at any depth; they are modelled by `EValue`/`EMatcher`.  The regex inside
  `stringMatching` is modelled as an opaque test function `String → Bool`,
  exactly the interface `RegExp.test` exposes to `matchValue`.
* A thrown JS exception is modelled by the `Thrown` sum: `ExpectationError`
  (the typed assertion error, carrying the failing `GraderResult` and the
  assertion tag) versus any other error (carrying its message).  An assertion
  call is modelled as a function returning the `GraderResult` it pushes onto
  the shared per-trial list together with an optional `Thrown`.
* The provider call inside `toPassJudge` is external I/O; the judge's reply
  is therefore a parameter (`judgeReply`).  `JSON.parse` on the extracted
  substring is likewise host functionality; its outcome is the parameter
  `jsonParse : String → Option Judgment` (`none` models a parse throw).
  The extraction regex `/\x7b[\s\S]*\x7d/` itself is modelled faithfully by
  `extractJson` (first `\x7b` through the last `\x7d`, greedy).
* A task body (`task.fn`) is arbitrary user code; a trial's interaction with
  it is modelled by `TrialScript`: how the body ended (`BodyOutcome`) and the
  grader results that had been pushed to the trial list when it ended.
-/

namespace AgentEval

/-- JS runtime values (the `actual` side of matching; tool-call arguments and
results).  Matcher objects never occur on this side. -/
inductive JSValue where
  | undef
  | null
  | bool (b : Bool)
  | num (q : ℚ)
  | str (s : String)
  | arr (xs : List JSValue)
  | obj (fields : List (String × JSValue))

mutual
/-- Expected values for `matchValue`: JS values in which matcher objects may
be nested at any depth (`src/expect/index.ts`, matcher sublanguage). -/
inductive EValue where
  | undef
  | null
  | bool (b : Bool)
  | num (q : ℚ)
  | str (s : String)
  | arr (xs : List EValue)
  | obj (fields : List (String × EValue))
  | matcher (m : EMatcher)

/-- The four matcher variants of `src/expect/index.ts` lines 35-100. -/
inductive EMatcher where
  | objectContaining (fields : List (String × EValue))
  | arrayContaining (items : List EValue)
  | stringMatching (test : String → Bool)
  | anything
end

/-- JS `typeof v === 'object' && v !== null` (arrays are objects in JS). -/
def JSValue.isObjLike : JSValue → Bool
  | .arr _ => true
  | .obj _ => true
  | _ => false

/-- Canonical array-index strings ("0", "1", ..., no leading zeros). -/
def decimalIndex? (s : String) : Option Nat :=
  if s = "0" then some 0
  else if s.length > 0 ∧ s.front ≠ '0' ∧ s.all Char.isDigit then some s.toNat!
  else none

/-- JS property read `v[k]`: first matching own key of an object (JS object
keys are unique), index/length access on an array, `undefined` otherwise. -/
def JSValue.objGet : JSValue → String → JSValue
  | .obj fields, k =>
    match fields.find? (fun p => p.1 == k) with
    | some p => p.2
    | none => .undef
  | .arr xs, k =>
    if k = "length" then .num xs.length
    else
      match decimalIndex? k with
      | some i => xs.getD i .undef
      | none => .undef
  | _, _ => .undef

mutual
/-- Embedding of `matchValue` (`src/expect/index.ts` lines 105-128): matcher
dispatch first, then deep comparison for expected objects/arrays, then JS
strict equality (`===`) for primitives.  Totality of this Lean function is
the "never throws" contract of the source. -/
def matchValue (actual : JSValue) (expected : EValue) : Bool :=
  match expected with
  | .matcher m => matchMatcher actual m
  | .arr es =>
    match actual with
    | .arr xs => xs.length == es.length && matchPairs xs es
    | _ => false
  | .obj fs =>
    if actual.isObjLike then matchFields actual fs else false
  | .undef => match actual with | .undef => true | _ => false
  | .null => match actual with | .null => true | _ => false
  | .bool b => match actual with | .bool a => a == b | _ => false
  | .num q => match actual with | .num a => a == q | _ => false
  | .str s => match actual with | .str a => a == s | _ => false

/-- Embedding of the four matchers' `match` methods
(`src/expect/index.ts` lines 35-100). -/
def matchMatcher (actual : JSValue) (m : EMatcher) : Bool :=
  match m with
  | .objectContaining fs => actual.isObjLike && matchFields actual fs
  | .arrayContaining items =>
    match actual with
    | .arr xs => matchItems xs items
    | _ => false
  | .stringMatching t =>
    match actual with
    | .str s => t s
    | _ => false
  | .anything => true

/-- `Object.entries(expected).every(([key, v]) => matchValue(actual[key], v))`:
iterate the expected key/value pairs, reading each key off the actual value. -/
def matchFields (actual : JSValue) (fs : List (String × EValue)) : Bool :=
  match fs with
  | [] => true
  | (k, ev) :: rest => matchValue (actual.objGet k) ev && matchFields actual rest

/-- `expected.every(item => value.some(a => matchValue(a, item)))` of
`arrayContaining`: every expected item has some matching actual element. -/
def matchItems (xs : List JSValue) (items : List EValue) : Bool :=
  match items with
  | [] => true
  | e :: rest => matchAny xs e && matchItems xs rest

/-- `value.some(a => matchValue(a, item))`. -/
def matchAny (xs : List JSValue) (e : EValue) : Bool :=
  match xs with
  | [] => false
  | a :: as => matchValue a e || matchAny as e

/-- `expected.every((item, i) => matchValue(actual[i], item))` under the
same-length guard: element-wise matching of plain expected arrays. -/
def matchPairs (xs : List JSValue) (es : List EValue) : Bool :=
  match xs, es with
  | [], [] => true
  | a :: as, e :: rest => matchValue a e && matchPairs as rest
  | _, _ => false
end

/-- Token usage totals (`src/types.ts`). -/
structure TokenUsage where
  inputTokens : Nat
  outputTokens : Nat
  totalTokens : Nat
  deriving Repr, DecidableEq

/-- The atomic grading outcome (`src/types.ts` `GraderResult`). -/
structure GraderResult where
  pass : Bool
  reason : String
  score : Option ℚ := none
  usage : Option TokenUsage := none
  costUsd : Option ℚ := none
  deriving Repr, DecidableEq

/-- One tool invocation captured from the model (`src/types.ts` `ToolCall`);
`result` is `none` exactly when no executor ran. -/
structure ToolCall where
  name : String
  arguments : List (String × JSValue)
  result : Option JSValue := none

/-- One provider exchange (`src/types.ts` `ChatResult`). -/
structure ChatResult where
  content : String
  toolCalls : List ToolCall
  usage : TokenUsage

/-- A thrown JS exception: the typed `ExpectationError` (with the failing
grader result and the `expectationType` tag) or any other error. -/
inductive Thrown where
  | expectation (graderResult : GraderResult) (expectationType : String)
  | otherError (msg : String)

/-- What one assertion call does: the `GraderResult` it pushes on the shared
trial list (the push happens unconditionally) and the exception it raises,
if any. -/
structure AssertionOutcome where
  pushed : GraderResult
  thrown : Option Thrown

/-- State of a `ToolCallsExpect` view (`src/expect/index.ts` lines 142-148):
the captured tool-call list and the negation polarity. -/
structure ToolCallsExpect where
  toolCalls : List ToolCall
  negated : Bool := false

/-- The `not` getter of `ToolCallsExpect` (lines 150-154): a fresh view over
the same list with the polarity flipped. -/
def ToolCallsExpect.negate (t : ToolCallsExpect) : ToolCallsExpect :=
  { t with negated := !t.negated }

/-- `toolCalls.toHaveBeenCalled()` (lines 159-178). -/
def ToolCallsExpect.toHaveBeenCalled (t : ToolCallsExpect) : AssertionOutcome :=
  let called := decide (t.toolCalls.length > 0)
  let pass := if t.negated then !called else called
  let reason :=
    if t.negated then
      if called then
        "Expected no tools to be called, but " ++ toString t.toolCalls.length
          ++ " were called: " ++ String.intercalate ", " (t.toolCalls.map (·.name))
      else "No tools were called (as expected)"
    else
      if called then
        "Tools were called: " ++ String.intercalate ", " (t.toolCalls.map (·.name))
      else "Expected at least one tool to be called, but none were"
  let result : GraderResult := { pass := pass, reason := reason }
  { pushed := result
    thrown := if pass then none else some (.expectation result "toolCalls.toHaveBeenCalled") }

/-- State of an `Expect` instance (`src/expect/index.ts` lines 353-364): the
wrapped response, the `negated` flag, and the `negated` flag of the private
`_toolCalls` sub-view it holds. -/
structure Expect where
  result : ChatResult
  negated : Bool
  toolCallsView : ToolCallsExpect

/-- The `Expect` constructor / `createExpect`: `negated = false` and a fresh
non-negated `ToolCallsExpect` over the response's tool calls. -/
def Expect.make (r : ChatResult) : Expect :=
  { result := r, negated := false
    toolCallsView := { toolCalls := r.toolCalls, negated := false } }

/-- The `not` getter of `Expect` (lines 366-371): a new instance with
`negated` flipped whose `_toolCalls` is `this._toolCalls.not`. -/
def Expect.negate (e : Expect) : Expect :=
  { e with negated := !e.negated, toolCallsView := e.toolCallsView.negate }

/-- The `toolCalls` getter of `Expect` (lines 373-375):
`this.negated ? this._toolCalls.not : this._toolCalls`. -/
def Expect.toolCalls (e : Expect) : ToolCallsExpect :=
  if e.negated then e.toolCallsView.negate else e.toolCallsView

/-- The judgment object `toPassJudge` expects the judge to return
(`\x7bpass, score, reason\x7d`). -/
structure Judgment where
  pass : Bool
  score : ℚ
  reason : String
  deriving Repr, DecidableEq

/-- The extraction regex of `toPassJudge` (line 488): a greedy
`/\x7b[\s\S]*\x7d/` match returns the substring from the first `\x7b` through
the last `\x7d` (and fails when no such span exists). -/
def extractJson (content : String) : Option String :=
  let cs := content.toList
  match cs.findIdx? (· == '\x7b') with
  | none => none
  | some i =>
    match cs.reverse.findIdx? (· == '\x7d') with
    | none => none
    | some jr =>
      let j := cs.length - 1 - jr
      if i < j then some (String.mk ((cs.drop i).take (j - i + 1))) else none

/-- The `judgment` variable of `toPassJudge` (lines 486-499): the parsed
judge reply, or — when extraction or `JSON.parse` fails — the synthesized
failing judgment. -/
def parseJudgment (jsonParse : String → Option Judgment) (content : String) : Judgment :=
  match extractJson content >>= jsonParse with
  | some j => j
  | none =>
    { pass := false, score := 0
      reason := "Failed to parse judge response: " ++ content }

/-- Embedding of `toPassJudge` (lines 449-523) from the point the judge's
reply is available: threshold resolution (`threshold = 0.5` default), reply
parsing, threshold gating `judgment.score >= threshold`, negation, push and
throw-on-fail.  The judge provider call itself is external I/O; its reply is
the `judgeReply` parameter. -/
def toPassJudge (e : Expect) (thresholdOpt : Option ℚ)
    (jsonParse : String → Option Judgment) (judgeReply : ChatResult) :
    AssertionOutcome :=
  let threshold := thresholdOpt.getD (1/2)
  let judgment := parseJudgment jsonParse judgeReply.content
  let passesThreshold := decide (judgment.score ≥ threshold)
  let pass := if e.negated then !passesThreshold else passesThreshold
  let reason :=
    if e.negated then
      if passesThreshold then
        "Expected NOT to pass judge (score: " ++ toString judgment.score ++ "). "
          ++ judgment.reason
      else "Did not pass judge (as expected). " ++ judgment.reason
    else
      if passesThreshold then
        "Passed judge (score: " ++ toString judgment.score ++ "). " ++ judgment.reason
      else
        "Failed judge (score: " ++ toString judgment.score ++ ", threshold: "
          ++ toString threshold ++ "). " ++ judgment.reason
  let result : GraderResult :=
    { pass := pass, score := some judgment.score, reason := reason
      usage := some judgeReply.usage }
  { pushed := result
    thrown := if pass then none else some (.expectation result "toPassJudge") }

/-- Provider/model pair (`src/providers.ts` `AIConfig`); the provider name is
a string key into the configured-provider map. -/
structure AIConfig where
  provider : String
  model : String
  deriving Repr, DecidableEq

/-- Suite-level options (`src/types.ts` `SuiteOptions`), the parts the
context factory consumes. -/
structure SuiteOptions where
  ai : Option AIConfig := none
  judge : Option AIConfig := none
  system : Option String := none
  deriving Repr, DecidableEq

/-- Task-level options (`src/types.ts` `EvalOptions`), the parts the context
factory and runner consume. -/
structure EvalOptions where
  ai : Option AIConfig := none
  judge : Option AIConfig := none
  timeout : Option Nat := none
  deriving Repr, DecidableEq

/-- Run configuration (`src/types.ts` `EvaliteConfig`), the recognized
execution options. -/
structure EvaliteConfig where
  trials : Option Nat := none
  timeout : Option Nat := none
  parallel : Option Bool := none
  maxConcurrency : Option Nat := none
  maxCost : Option ℚ := none
  deriving Repr, DecidableEq

/-- What `createEvalContext` resolves: the AI config and provider actually
used, and the judge config and judge provider actually used.  Providers are
opaque HTTP clients; each is represented by the registry key that selects
it, with the registry modelled as the list of configured provider names. -/
structure ResolvedContext where
  aiConfig : AIConfig
  providerName : String
  judgeConfig : AIConfig
  judgeProviderName : String
  deriving Repr, DecidableEq

/-- Embedding of `createEvalContext` (`src/core/context.ts` lines 19-53):
AI config by task-over-suite precedence, synchronous throw (modelled by
`Except.error`) when absent or when its provider is not configured; judge
config falling back task judge, suite judge, then the AI config itself; the
judge provider silently falling back to the AI provider when the judge's
provider name is not configured (`providers.get(...) ?? provider`). -/
def createEvalContext (providers : List String) (suiteOptions : SuiteOptions)
    (evalOptions : EvalOptions) : Except String ResolvedContext :=
  match evalOptions.ai.orElse (fun _ => suiteOptions.ai) with
  | none =>
    .error "No AI provider configured. Use ai: anthropic(\"model\") or ai: openai(\"model\") in describe() options."
  | some aiConfig =>
    if providers.contains aiConfig.provider then
      let judgeConfig :=
        ((evalOptions.judge.orElse (fun _ => suiteOptions.judge)).getD aiConfig)
      let judgeProviderName :=
        if providers.contains judgeConfig.provider then judgeConfig.provider
        else aiConfig.provider
      .ok { aiConfig := aiConfig, providerName := aiConfig.provider
            judgeConfig := judgeConfig, judgeProviderName := judgeProviderName }
    else
      .error ("Provider \"" ++ aiConfig.provider
        ++ "\" not configured. Add API key to config or environment.")

/-- Trial/task status (`src/types.ts` `TaskStatus`). -/
inductive TaskStatus where
  | passed
  | failed
  | skipped
  | error
  deriving Repr, DecidableEq

/-- Result of one trial (`src/types.ts` `TrialResult`). -/
structure TrialResult where
  status : TaskStatus
  duration : Nat
  graderResults : List GraderResult
  error : Option String := none
  usage : TokenUsage
  costUsd : ℚ
  deriving Repr, DecidableEq

/-- The shared mutable cost tracker of `src/core/runner.ts` lines 28-31. -/
structure CostTracker where
  totalCost : ℚ
  exceeded : Bool
  deriving Repr, DecidableEq

/-- How the task body (`await task.fn(context)`) ended: normal completion, a
typed `ExpectationError` (with its grader result and tag), or any other
exception (with its message, or the stringification of the thrown value). -/
inductive BodyOutcome where
  | completes
  | throwsExpectation (graderResult : GraderResult) (expectationType : String)
  | throwsOther (msg : String)
  deriving Repr, DecidableEq

/-- One trial's interaction with the task body: how the body ended, the
grader results that the body's assertions had pushed onto the trial-scoped
list by then, and the wall-clock duration measured for the trial. -/
structure TrialScript where
  body : BodyOutcome
  collected : List GraderResult
  elapsed : Nat
  deriving Repr, DecidableEq

/-- All-zero token usage. -/
def zeroUsage : TokenUsage := { inputTokens := 0, outputTokens := 0, totalTokens := 0 }

/-- The usage-aggregation loop of `runTrial` (lines 82-87): component-wise
sum over the grader results that carry a `usage`. -/
def sumUsage (rs : List GraderResult) : TokenUsage :=
  rs.foldl
    (fun acc r =>
      match r.usage with
      | some u =>
        { inputTokens := acc.inputTokens + u.inputTokens
          outputTokens := acc.outputTokens + u.outputTokens
          totalTokens := acc.totalTokens + u.totalTokens }
      | none => acc)
    zeroUsage

/-- The cost-aggregation loop of `runTrial` (lines 88-90): sum of the
`costUsd` fields (`if (r.costUsd)` — adding a falsy 0 is a no-op). -/
def sumCost (rs : List GraderResult) : ℚ :=
  rs.foldl
    (fun acc r =>
      match r.costUsd with
      | some c => if c = 0 then acc else acc + c
      | none => acc)
    0

/-- The budget check `options.maxCost && costTracker.totalCost >= options.maxCost`
(line 62): `maxCost` absent or `0` is falsy, so the check never fires then. -/
def costLimitHit (maxCost : Option ℚ) (totalCost : ℚ) : Bool :=
  match maxCost with
  | some m => if m = 0 then false else decide (totalCost ≥ m)
  | none => false

/-- The skipped trial record returned when the budget is exhausted
(lines 64-71 and 136-143): zero duration, no grader results, zero usage and
cost, reason "Cost limit exceeded". -/
def skippedTrial : TrialResult :=
  { status := .skipped, duration := 0, graderResults := []
    error := some "Cost limit exceeded", usage := zeroUsage, costUsd := 0 }

/-- Embedding of `runTrial` (`src/core/runner.ts` lines 36-115) from the
point the context exists.  The budget check runs first; then the body runs:
on completion the statuses/usage/cost are computed from the collected grader
results and the trial's cost is added to the tracker; on a throw the
usage-aggregation loop is never reached, so zero usage/cost is reported and
added.  `config` and `taskOptions` mirror the source signature (the task's
options and the run config); `runTrial` reads neither — in particular
neither `timeout` field. -/
def runTrial (config : EvaliteConfig) (taskOptions : EvalOptions)
    (maxCost : Option ℚ) (tracker : CostTracker) (script : TrialScript) :
    TrialResult × CostTracker :=
  if costLimitHit maxCost tracker.totalCost then
    (skippedTrial, { tracker with exceeded := true })
  else
    match script.body with
    | .completes =>
      let anyFailed := script.collected.any (fun r => !r.pass)
      let cost := sumCost script.collected
      ({ status := if anyFailed then .failed else .passed
         duration := script.elapsed
         graderResults := script.collected
         error := none
         usage := sumUsage script.collected
         costUsd := cost },
       { tracker with totalCost := tracker.totalCost + cost })
    | .throwsExpectation r _tag =>
      ({ status := .failed, duration := script.elapsed
         graderResults := script.collected
         error := some r.reason, usage := zeroUsage, costUsd := 0 },
       { tracker with totalCost := tracker.totalCost + 0 })
    | .throwsOther msg =>
      ({ status := .error, duration := script.elapsed
         graderResults := script.collected
         error := some msg, usage := zeroUsage, costUsd := 0 },
       { tracker with totalCost := tracker.totalCost + 0 })

/-- The trial loop of `runTask` (lines 132-149): before each trial the
`exceeded` flag short-circuits to a skipped trial; otherwise `runTrial` runs
(and itself re-checks the budget).  One `TrialScript` per configured trial. -/
def runTrialsLoop (config : EvaliteConfig) (taskOptions : EvalOptions)
    (maxCost : Option ℚ) (scripts : List TrialScript) (tracker : CostTracker) :
    List TrialResult × CostTracker :=
  match scripts with
  | [] => ([], tracker)
  | s :: rest =>
    if tracker.exceeded then
      let next := runTrialsLoop config taskOptions maxCost rest tracker
      (skippedTrial :: next.1, next.2)
    else
      let r := runTrial config taskOptions maxCost tracker s
      let next := runTrialsLoop config taskOptions maxCost rest r.2
      (r.1 :: next.1, next.2)

/-- The pass@k status aggregation of `runTask` (lines 151-166): all trials
skipped means skipped, else any pass means passed, else any error means
error, else failed. -/
def aggregateStatus (trials : List TrialResult) : TaskStatus :=
  let anyPassed := trials.any (fun r => decide (r.status = .passed))
  let allSkipped := trials.all (fun r => decide (r.status = .skipped))
  let anyError := trials.any (fun r => decide (r.status = .error))
  if allSkipped then .skipped
  else if anyPassed then .passed
  else if anyError then .error
  else .failed

/-- Result of one task (`src/types.ts` `TaskResult`). -/
structure TaskResult where
  name : String
  status : TaskStatus
  trials : List TrialResult
  duration : Nat
  deriving Repr, DecidableEq

/-- Embedding of `runTask` (lines 120-180): run the configured number of
trials through the loop, then aggregate the pass@k status. -/
def runTask (name : String) (config : EvaliteConfig) (taskOptions : EvalOptions)
    (maxCost : Option ℚ) (scripts : List TrialScript) (tracker : CostTracker)
    (taskElapsed : Nat) : TaskResult × CostTracker :=
  let outcome := runTrialsLoop config taskOptions maxCost scripts tracker
  ({ name := name, status := aggregateStatus outcome.1
     trials := outcome.1, duration := taskElapsed }, outcome.2)

/-! Concrete fixtures used by witnesses and counterexamples. -/

/-- A trial that passed (fixture). -/
def passTrial : TrialResult :=
  { status := .passed, duration := 1, graderResults := [], error := none
    usage := zeroUsage, costUsd := 0 }

/-- A trial that failed (fixture). -/
def failTrial : TrialResult :=
  { status := .failed, duration := 1, graderResults := [], error := none
    usage := zeroUsage, costUsd := 0 }

/-- A trial that errored (fixture). -/
def errorTrial : TrialResult :=
  { status := .error, duration := 1, graderResults := [], error := some "boom"
    usage := zeroUsage, costUsd := 0 }

/-- A skipped trial (fixture). -/
def skipTrial : TrialResult :=
  { status := .skipped, duration := 0, graderResults := []
    error := some "Cost limit exceeded", usage := zeroUsage, costUsd := 0 }

/-- A grader result carrying judge usage and cost, as a failing `toPassJudge`
leaves behind (fixture). -/
def judgeUsageGR : GraderResult :=
  { pass := false, reason := "judge failed", score := some 0
    usage := some { inputTokens := 3, outputTokens := 4, totalTokens := 7 }
    costUsd := some (1/2) }

/-- A response with one tool call (fixture). -/
def chatWithToolCall : ChatResult :=
  { content := "", toolCalls := [{ name := "search", arguments := [] }]
    usage := zeroUsage }

/-- A response with no tool calls (fixture). -/
def chatNoToolCalls : ChatResult :=
  { content := "", toolCalls := [], usage := zeroUsage }

/-- A plain response under test (fixture). -/
def chatSample : ChatResult :=
  { content := "hello", toolCalls := [], usage := zeroUsage }

/-- The judge reply of the spec's worked example:
`\x7b"pass":true,"score":0.6,"reason":"ok"\x7d` (fixture). -/
def judgeRawReply : String :=
  "\x7b\"pass\":true,\"score\":0.6,\"reason\":\"ok\"\x7d"

/-- The judgment `JSON.parse` produces from `judgeRawReply` (fixture). -/
def judgmentSample : Judgment := { pass := true, score := 3/5, reason := "ok" }

/-- A `JSON.parse` model that parses exactly `judgeRawReply` (fixture). -/
def jsonParseSample : String → Option Judgment :=
  fun s => if s = judgeRawReply then some judgmentSample else none

/-- The judge's `ChatResult` for the worked example (fixture). -/
def judgeReplySample : ChatResult :=
  { content := judgeRawReply, toolCalls := []
    usage := { inputTokens := 5, outputTokens := 7, totalTokens := 12 } }

/-- A judge reply containing no JSON at all (fixture). -/
def badJudgeReply : ChatResult :=
  { content := "I refuse to answer.", toolCalls := []
    usage := { inputTokens := 1, outputTokens := 2, totalTokens := 3 } }

/-- A `JSON.parse` model that always fails (fixture). -/
def jsonParseNone : String → Option Judgment := fun _ => none

/-- AI config naming a configured provider (fixture). -/
def aiConfigSample : AIConfig := { provider := "anthropic", model := "claude-sonnet" }

/-- Judge config naming an unconfigured provider (fixture). -/
def judgeConfigSample : AIConfig := { provider := "openai", model := "gpt-4o" }

/-! Helper lemmas shared by the claim theorems. -/

/-- `matchAny` is the existential over the actual elements. -/
lemma matchAny_iff (xs : List JSValue) (e : EValue) :
    matchAny xs e = true ↔ ∃ a ∈ xs, matchValue a e = true := by
  induction xs with
  | nil => simp [matchAny]
  | cons a as ih => simp [matchAny, Bool.or_eq_true, ih]

/-- `matchItems` is the for-all-exists of `arrayContaining`. -/
lemma matchItems_iff (xs : List JSValue) (items : List EValue) :
    matchItems xs items = true ↔ ∀ it ∈ items, ∃ a ∈ xs, matchValue a it = true := by
  induction items with
  | nil => simp [matchItems]
  | cons e rest ih => simp [matchItems, Bool.and_eq_true, ih, matchAny_iff]

/-- `matchPairs` is element-wise matching of equal-length lists. -/
lemma matchPairs_iff (xs : List JSValue) (es : List EValue) :
    matchPairs xs es = true ↔ List.Forall₂ (fun a e => matchValue a e = true) xs es := by
  induction xs generalizing es with
  | nil => cases es <;> simp [matchPairs]
  | cons a as ih => cases es <;> simp [matchPairs, Bool.and_eq_true, ih]

/-- Property reads at keys other than a freshly prepended one are unchanged. -/
lemma objGet_cons_ne (k k1 : String) (w : JSValue) (afs : List (String × JSValue))
    (h : k1 ≠ k) :
    (JSValue.obj ((k, w) :: afs)).objGet k1 = (JSValue.obj afs).objGet k1 := by
  have hbeq : (k == k1) = false := by
    simp [beq_eq_false_iff_ne]
    exact fun hc => h hc.symm
  simp [JSValue.objGet, List.find?, hbeq]

/-- Field-wise matching consults only the expected keys: prepending a binding
for a key the expected fields do not mention leaves the verdict unchanged. -/
lemma matchFields_extra_key (afs : List (String × JSValue)) (fs : List (String × EValue))
    (k : String) (w : JSValue) (hk : k ∉ fs.map Prod.fst) :
    matchFields (.obj ((k, w) :: afs)) fs = matchFields (.obj afs) fs := by
  induction fs with
  | nil => simp [matchFields]
  | cons p rest ih =>
    obtain ⟨k1, ev⟩ := p
    simp only [List.map_cons, List.mem_cons, not_or] at hk
    have hobj := objGet_cons_ne k k1 w afs (fun hc => hk.1 hc.symm)
    simp [matchFields, hobj, ih hk.2]

/-- `runTrial` under a clear budget: it never skips and leaves the
`exceeded` flag alone. -/
lemma runTrial_no_hit (config : EvaliteConfig) (taskOptions : EvalOptions)
    (mc : Option ℚ) (tracker : CostTracker) (script : TrialScript)
    (h : costLimitHit mc tracker.totalCost = false) :
    (runTrial config taskOptions mc tracker script).1.status ≠ .skipped
    ∧ (runTrial config taskOptions mc tracker script).2.exceeded = tracker.exceeded := by
  unfold runTrial
  rw [h]
  cases script.body <;> simp <;> split <;> simp

/-- `runTrial` when the budget check fires: the skipped trial, and the
tracker flagged exceeded. -/
lemma runTrial_hit (config : EvaliteConfig) (taskOptions : EvalOptions)
    (mc : Option ℚ) (tracker : CostTracker) (script : TrialScript)
    (h : costLimitHit mc tracker.totalCost = true) :
    runTrial config taskOptions mc tracker script
      = (skippedTrial, { tracker with exceeded := true }) := by
  unfold runTrial
  rw [h]
  simp

/-- Tracker update of a completing, non-skipped trial. -/
lemma runTrial_completes_tracker (config : EvaliteConfig) (taskOptions : EvalOptions)
    (mc : Option ℚ) (tracker : CostTracker) (script : TrialScript)
    (h : costLimitHit mc tracker.totalCost = false) (hb : script.body = .completes) :
    (runTrial config taskOptions mc tracker script).2
      = { tracker with totalCost := tracker.totalCost + sumCost script.collected } := by
  unfold runTrial
  rw [h, hb]
  simp

/-- One step of the trial loop when the `exceeded` flag is clear. -/
lemma runTrialsLoop_cons_clear (config : EvaliteConfig) (taskOptions : EvalOptions)
    (mc : Option ℚ) (s : TrialScript) (rest : List TrialScript)
    (tracker : CostTracker) (hexc : tracker.exceeded = false) :
    runTrialsLoop config taskOptions mc (s :: rest) tracker
      = ((runTrial config taskOptions mc tracker s).1
            :: (runTrialsLoop config taskOptions mc rest
                  (runTrial config taskOptions mc tracker s).2).1,
        (runTrialsLoop config taskOptions mc rest
            (runTrial config taskOptions mc tracker s).2).2) := by
  conv_lhs => rw [runTrialsLoop]
  simp [hexc]

/-- If the budget check can never fire, the trial loop never produces a
skipped trial (given the `exceeded` flag starts clear). -/
lemma runTrialsLoop_no_skip (config : EvaliteConfig) (taskOptions : EvalOptions)
    (mc : Option ℚ) (hmc : ∀ t, costLimitHit mc t = false) :
    ∀ (scripts : List TrialScript) (tracker : CostTracker),
      tracker.exceeded = false →
      ∀ r ∈ (runTrialsLoop config taskOptions mc scripts tracker).1,
        r.status ≠ .skipped := by
  intro scripts
  induction scripts with
  | nil => intro tracker _ r hr; simp [runTrialsLoop] at hr
  | cons s rest ih =>
    intro tracker hexc r hr
    have hhit := hmc tracker.totalCost
    have hns := runTrial_no_hit config taskOptions mc tracker s hhit
    simp only [runTrialsLoop, hexc, if_false, Bool.false_eq_true] at hr
    rcases List.mem_cons.mp hr with hhd | htl
    · rw [hhd]; exact hns.1
    · exact ih _ (hns.2.trans hexc) r htl

/-- Inversion for a successful context creation: the resolved AI config is
the task-over-suite resolution, its provider is configured, and the judge
fields are the fallback computations. -/
lemma createEvalContext_ok_inv (providers : List String) (so : SuiteOptions)
    (eo : EvalOptions) (ctx : ResolvedContext)
    (hok : createEvalContext providers so eo = .ok ctx) :
    ∃ a, eo.ai.orElse (fun _ => so.ai) = some a
      ∧ providers.contains a.provider = true
      ∧ ctx.aiConfig = a
      ∧ ctx.providerName = a.provider
      ∧ ctx.judgeConfig = (eo.judge.orElse (fun _ => so.judge)).getD a
      ∧ ctx.judgeProviderName
          = (if providers.contains ctx.judgeConfig.provider then
              ctx.judgeConfig.provider
            else a.provider) := by
  unfold createEvalContext at hok
  split at hok
  · cases hok
  · rename_i a hai
    split at hok
    · rename_i hc
      cases hok
      exact ⟨a, hai, hc, rfl, rfl, rfl, rfl⟩
    · cases hok

/-! Claim theorems. -/

/-- C2: for every task with a non-empty list of trial results, the task
status is Skipped if all trials are skipped; otherwise Passed if at least
one trial passed (pass@k, not majority vote); otherwise Error if at least
one trial errored; otherwise Failed. -/
theorem aggregateStatus_pass_at_k (trials : List TrialResult) (hne : trials ≠ []) :
    ((∀ r ∈ trials, r.status = TaskStatus.skipped) →
        aggregateStatus trials = .skipped)
  ∧ ((∃ r ∈ trials, r.status ≠ TaskStatus.skipped) →
      (∃ r ∈ trials, r.status = TaskStatus.passed) →
        aggregateStatus trials = .passed)
  ∧ ((∃ r ∈ trials, r.status ≠ TaskStatus.skipped) →
      (∀ r ∈ trials, r.status ≠ TaskStatus.passed) →
      (∃ r ∈ trials, r.status = TaskStatus.error) →
        aggregateStatus trials = .error)
  ∧ ((∃ r ∈ trials, r.status ≠ TaskStatus.skipped) →
      (∀ r ∈ trials, r.status ≠ TaskStatus.passed) →
      (∀ r ∈ trials, r.status ≠ TaskStatus.error) →
        aggregateStatus trials = .failed) := by
  unfold aggregateStatus
  simp only [List.all_eq_true, List.any_eq_true, decide_eq_true_eq]
  refine ⟨?_, ?_, ?_, ?_⟩
  · intro h
    rw [if_pos h]
  · rintro ⟨r0, hr0, hr0s⟩ ⟨rp, hrp, hrps⟩
    rw [if_neg fun hall => hr0s (hall r0 hr0), if_pos ⟨rp, hrp, hrps⟩]
  · rintro ⟨r0, hr0, hr0s⟩ hnp ⟨re, hre, hres⟩
    rw [if_neg fun hall => hr0s (hall r0 hr0),
      if_neg fun hp => hp.elim fun rp hrp => hnp rp hrp.1 hrp.2,
      if_pos ⟨re, hre, hres⟩]
  · rintro ⟨r0, hr0, hr0s⟩ hnp hnerr
    rw [if_neg fun hall => hr0s (hall r0 hr0),
      if_neg fun hp => hp.elim fun rp hrp => hnp rp hrp.1 hrp.2,
      if_neg fun he => he.elim fun re hre => hnerr re hre.1 hre.2]

/-- Witness for C2 at the spec's worked examples: `[fail, pass, fail]` is
Passed, `[fail, fail, error]` is Error, `[skip, skip, skip]` is Skipped. -/
theorem aggregateStatus_pass_at_k_witness :
    aggregateStatus [failTrial, passTrial, failTrial] = .passed
  ∧ aggregateStatus [failTrial, failTrial, errorTrial] = .error
  ∧ aggregateStatus [skipTrial, skipTrial, skipTrial] = .skipped := by
  refine ⟨?_, ?_, ?_⟩
  · exact (aggregateStatus_pass_at_k [failTrial, passTrial, failTrial] (by simp)).2.1
      ⟨failTrial, by simp, by decide⟩ ⟨passTrial, by simp, by decide⟩
  · exact (aggregateStatus_pass_at_k [failTrial, failTrial, errorTrial] (by simp)).2.2.1
      ⟨failTrial, by simp, by decide⟩ (by decide) ⟨errorTrial, by simp, by decide⟩
  · exact (aggregateStatus_pass_at_k [skipTrial, skipTrial, skipTrial] (by simp)).1
      (by decide)

/-- C4: for a trial that is not skipped: on normal completion the status is
Failed exactly when some collected grader result has `pass = false` and
Passed otherwise; on the typed assertion error the status is Failed and the
trial's error message is the failing grader result's reason; on any other
error the status is Error and the message is the exception's. -/
theorem runTrial_body_outcome_statuses (config : EvaliteConfig)
    (taskOptions : EvalOptions) (maxCost : Option ℚ) (tracker : CostTracker)
    (script : TrialScript)
    (hno : costLimitHit maxCost tracker.totalCost = false) :
    (script.body = .completes →
        (((runTrial config taskOptions maxCost tracker script).1.status = .failed
            ↔ ∃ r ∈ script.collected, r.pass = false)
        ∧ ((runTrial config taskOptions maxCost tracker script).1.status = .passed
            ↔ ∀ r ∈ script.collected, r.pass = true)))
  ∧ (∀ gr tag, script.body = .throwsExpectation gr tag →
        (runTrial config taskOptions maxCost tracker script).1.status = .failed
      ∧ (runTrial config taskOptions maxCost tracker script).1.error = some gr.reason)
  ∧ (∀ msg, script.body = .throwsOther msg →
        (runTrial config taskOptions maxCost tracker script).1.status = .error
      ∧ (runTrial config taskOptions maxCost tracker script).1.error = some msg) := by
  unfold runTrial
  rw [hno]
  refine ⟨?_, ?_, ?_⟩
  · intro hb
    rw [hb]
    simp only [Bool.false_eq_true, if_false]
    by_cases hf : script.collected.any (fun r => !r.pass) = true
    · simp only [List.any_eq_true, Bool.not_eq_eq_eq_not, Bool.not_true] at hf
      obtain ⟨r0, hr0, hr0f⟩ := hf
      constructor
      · simp only [List.any_eq_true, Bool.not_eq_eq_eq_not, Bool.not_true]
        rw [if_pos ⟨r0, hr0, hr0f⟩]
        simp only [true_iff]
        exact ⟨r0, hr0, hr0f⟩
      · simp only [List.any_eq_true, Bool.not_eq_eq_eq_not, Bool.not_true]
        rw [if_pos ⟨r0, hr0, hr0f⟩]
        constructor
        · intro h
          exact absurd h (by decide)
        · intro hall
          exact absurd (hall r0 hr0) (by simp [hr0f])
    · simp only [List.any_eq_true, Bool.not_eq_eq_eq_not, Bool.not_true] at hf
      push_neg at hf
      constructor
      · simp only [List.any_eq_true, Bool.not_eq_eq_eq_not, Bool.not_true]
        rw [if_neg (by push_neg; exact hf)]
        constructor
        · intro h
          exact absurd h (by decide)
        · rintro ⟨r0, hr0, hr0f⟩
          exact absurd hr0f (hf r0 hr0)
      · simp only [List.any_eq_true, Bool.not_eq_eq_eq_not, Bool.not_true]
        rw [if_neg (by push_neg; exact hf)]
        simp only [true_iff]
        intro r hr
        have := hf r hr
        exact Bool.not_eq_false r.pass ▸ (by simpa using this)
  · intro gr tag hb
    rw [hb]
    exact ⟨rfl, rfl⟩
  · intro msg hb
    rw [hb]
    exact ⟨rfl, rfl⟩

/-- Witness for C4: with one failing grader result collected and a normally
completing body, the trial reports Failed; a body throwing a non-assertion
error reports Error with its message. -/
theorem runTrial_body_outcome_statuses_witness :
    ((runTrial {} {} none { totalCost := 0, exceeded := false }
        { body := .completes, collected := [judgeUsageGR], elapsed := 2 }).1.status
      = TaskStatus.failed)
    ∧ ((runTrial {} {} none { totalCost := 0, exceeded := false }
        { body := .throwsOther "boom", collected := [], elapsed := 2 }).1.status
      = TaskStatus.error) := by
  constructor
  · exact ((runTrial_body_outcome_statuses {} {} none { totalCost := 0, exceeded := false }
      { body := .completes, collected := [judgeUsageGR], elapsed := 2 } rfl).1 rfl).1.mpr
      ⟨judgeUsageGR, by simp, rfl⟩
  · exact ((runTrial_body_outcome_statuses {} {} none { totalCost := 0, exceeded := false }
      { body := .throwsOther "boom", collected := [], elapsed := 2 } rfl).2.2 "boom" rfl).1

/-- C10: the runner never enforces the configured timeout — the trial result
is invariant under both the run-level and the task-level `timeout`, and the
only error messages a trial can carry are the budget-skip message and the
messages of the body's own exceptions: no abort with a timeout-specific
message exists. -/
theorem runTrial_ignores_timeout (config : EvaliteConfig) (taskOptions : EvalOptions)
    (t1 t2 t3 t4 : Option Nat) (maxCost : Option ℚ) (tracker : CostTracker)
    (script : TrialScript) :
    (runTrial { config with timeout := t1 } { taskOptions with timeout := t3 }
        maxCost tracker script
      = runTrial { config with timeout := t2 } { taskOptions with timeout := t4 }
        maxCost tracker script)
  ∧ (∀ e, (runTrial config taskOptions maxCost tracker script).1.error = some e →
        e = "Cost limit exceeded"
      ∨ (∃ gr tag, script.body = .throwsExpectation gr tag ∧ e = gr.reason)
      ∨ (∃ msg, script.body = .throwsOther msg ∧ e = msg)) := by
  constructor
  · rfl
  · intro e he
    unfold runTrial at he
    by_cases hhit : costLimitHit maxCost tracker.totalCost = true
    · rw [if_pos hhit] at he
      left
      exact (by simpa [skippedTrial] using he : "Cost limit exceeded" = e).symm
    · rw [if_neg hhit] at he
      match hbody : script.body with
      | .completes =>
        rw [hbody] at he
        simp at he
      | .throwsExpectation gr tag =>
        rw [hbody] at he
        right; left
        exact ⟨gr, tag, rfl, (Option.some_inj.mp he).symm⟩
      | .throwsOther msg =>
        rw [hbody] at he
        right; right
        exact ⟨msg, rfl, (Option.some_inj.mp he).symm⟩

/-- Witness for C10: at a concrete trial whose body throws "boom", the error
message is the body's own exception message, not a timeout message. -/
theorem runTrial_ignores_timeout_witness :
    ("boom" = "Cost limit exceeded"
    ∨ (∃ gr tag, (BodyOutcome.throwsOther "boom") = .throwsExpectation gr tag
          ∧ "boom" = gr.reason)
    ∨ (∃ msg, (BodyOutcome.throwsOther "boom") = .throwsOther msg ∧ "boom" = msg)) := by
  exact (runTrial_ignores_timeout {} {} (some 1) (some 60000) none (some 5) none
    { totalCost := 0, exceeded := false }
    { body := .throwsOther "boom", collected := [], elapsed := 0 }).2 "boom" rfl

/-- C3 counterexample: with `maxCost` configured as `0` and the tracker's
cumulative cost already meeting it (`0 ≥ 0`), the trial is NOT skipped — the
budget check treats the falsy `0` exactly like an absent budget, so the
trial runs and passes. -/
theorem runTrial_maxCost_zero_runs :
    (runTrial {} {} (some 0) { totalCost := 0, exceeded := false }
        { body := .completes, collected := [], elapsed := 0 }).1.status
      = TaskStatus.passed
    ∧ TaskStatus.passed ≠ TaskStatus.skipped := by
  constructor
  · rfl
  · decide

/-- C3 (amended): only a nonzero configured budget gates trials: for
`maxCost = m > 0`, a trial starting with the tracker at or above `m` is
immediately skipped with reason "Cost limit exceeded" and zero usage/cost;
the check runs before every trial (a later trial is skipped as soon as an
earlier one pushes the tracker over budget); with `maxCost` absent — or
configured as the falsy `0` — no trial is ever skipped for cost. -/
theorem runTrial_cost_budget_semantics (config : EvaliteConfig)
    (taskOptions : EvalOptions) :
    (∀ (m : ℚ) (tracker : CostTracker) (script : TrialScript),
        0 < m → m ≤ tracker.totalCost →
        runTrial config taskOptions (some m) tracker script
          = (skippedTrial, { tracker with exceeded := true }))
  ∧ (∀ (m : ℚ) (tracker : CostTracker) (s1 s2 : TrialScript),
        0 < m → tracker.exceeded = false → tracker.totalCost < m →
        s1.body = .completes →
        m ≤ tracker.totalCost + sumCost s1.collected →
        (runTrialsLoop config taskOptions (some m) [s1, s2] tracker).1
          = [(runTrial config taskOptions (some m) tracker s1).1, skippedTrial]
        ∧ (runTrial config taskOptions (some m) tracker s1).1.status ≠ .skipped)
  ∧ (∀ (scripts : List TrialScript) (tracker : CostTracker),
        tracker.exceeded = false →
        ∀ r ∈ (runTrialsLoop config taskOptions none scripts tracker).1,
          r.status ≠ .skipped)
  ∧ (∀ (scripts : List TrialScript) (tracker : CostTracker),
        tracker.exceeded = false →
        ∀ r ∈ (runTrialsLoop config taskOptions (some 0) scripts tracker).1,
          r.status ≠ .skipped) := by
  refine ⟨?_, ?_, ?_, ?_⟩
  · intro m tracker script hm hle
    have hhit : costLimitHit (some m) tracker.totalCost = true := by
      simp [costLimitHit, hm.ne.symm]
      exact hle
    exact runTrial_hit config taskOptions (some m) tracker script hhit
  · intro m tracker s1 s2 hm hexc hlt hbody hge
    have hhit1 : costLimitHit (some m) tracker.totalCost = false := by
      simp [costLimitHit, hm.ne.symm]
      exact hlt
    have hns := runTrial_no_hit config taskOptions (some m) tracker s1 hhit1
    refine ⟨?_, hns.1⟩
    have htr2 := runTrial_completes_tracker config taskOptions (some m) tracker s1 hhit1 hbody
    have hhit2 : costLimitHit (some m)
        (runTrial config taskOptions (some m) tracker s1).2.totalCost = true := by
      rw [htr2]
      simp [costLimitHit, hm.ne.symm]
      exact hge
    have hexc2 : (runTrial config taskOptions (some m) tracker s1).2.exceeded = false :=
      hns.2.trans hexc
    rw [runTrialsLoop_cons_clear config taskOptions (some m) s1 [s2] tracker hexc,
      runTrialsLoop_cons_clear config taskOptions (some m) s2 []
        (runTrial config taskOptions (some m) tracker s1).2 hexc2,
      runTrial_hit config taskOptions (some m)
        (runTrial config taskOptions (some m) tracker s1).2 s2 hhit2]
    rfl
  · intro scripts tracker hexc
    exact runTrialsLoop_no_skip config taskOptions none (fun t => rfl) scripts tracker hexc
  · intro scripts tracker hexc
    exact runTrialsLoop_no_skip config taskOptions (some 0) (fun t => by simp [costLimitHit])
      scripts tracker hexc

/-- Witness for C3 (amended): a concrete over-budget trial is skipped with
the "Cost limit exceeded" reason and zero usage/cost, and with no budget a
concrete trial is not skipped. -/
theorem runTrial_cost_budget_semantics_witness :
    (runTrial {} {} (some 1) { totalCost := 2, exceeded := false }
        { body := .completes, collected := [], elapsed := 3 }
      = (skippedTrial, { totalCost := 2, exceeded := true }))
    ∧ ∀ r ∈ (runTrialsLoop {} {} none
        [{ body := .completes, collected := [], elapsed := 3 }]
        { totalCost := 0, exceeded := false }).1, r.status ≠ .skipped := by
  constructor
  · exact (runTrial_cost_budget_semantics {} {}).1 1 { totalCost := 2, exceeded := false }
      { body := .completes, collected := [], elapsed := 3 } (by norm_num) (by norm_num)
  · exact (runTrial_cost_budget_semantics {} {}).2.2.1
      [{ body := .completes, collected := [], elapsed := 3 }]
      { totalCost := 0, exceeded := false } rfl

/-- C8 counterexample: a trial whose body throws (here: the typed assertion
error of a failing judge call whose grader result carries usage and cost)
reports zero usage and cost and adds nothing to the tracker — the
aggregation loop is skipped on the throwing path, so the claim's "including
when the task body threw" fails. -/
theorem runTrial_throwing_body_drops_usage :
    (runTrial {} {} none { totalCost := 0, exceeded := false }
        { body := .throwsExpectation judgeUsageGR "toPassJudge"
          collected := [judgeUsageGR], elapsed := 5 }).1.usage
      ≠ sumUsage [judgeUsageGR]
    ∧ (runTrial {} {} none { totalCost := 0, exceeded := false }
        { body := .throwsExpectation judgeUsageGR "toPassJudge"
          collected := [judgeUsageGR], elapsed := 5 }).1.costUsd
      ≠ sumCost [judgeUsageGR]
    ∧ (runTrial {} {} none { totalCost := 0, exceeded := false }
        { body := .throwsExpectation judgeUsageGR "toPassJudge"
          collected := [judgeUsageGR], elapsed := 5 }).2.totalCost = 0 := by
  refine ⟨?_, ?_, ?_⟩
  · intro h
    have : zeroUsage = sumUsage [judgeUsageGR] := h
    simp [zeroUsage, sumUsage, judgeUsageGR] at this
  · intro h
    have : (0 : ℚ) = sumCost [judgeUsageGR] := h
    rw [show sumCost [judgeUsageGR] = 1/2 by norm_num [sumCost, judgeUsageGR]] at this
    norm_num at this
  · show (0 : ℚ) + 0 = 0
    norm_num

/-- C8 (amended): for a non-skipped trial whose body completes without
throwing, the reported usage is the component-wise sum over the collected
grader results carrying usage, the reported cost is the sum of their
`costUsd`, and that cost is added to the shared tracker; when the body
throws, usage and cost are reported as zero and the tracker is unchanged. -/
theorem runTrial_usage_aggregation (config : EvaliteConfig)
    (taskOptions : EvalOptions) (maxCost : Option ℚ) (tracker : CostTracker)
    (script : TrialScript)
    (hno : costLimitHit maxCost tracker.totalCost = false) :
    (script.body = .completes →
        (runTrial config taskOptions maxCost tracker script).1.usage
          = sumUsage script.collected
      ∧ (runTrial config taskOptions maxCost tracker script).1.costUsd
          = sumCost script.collected
      ∧ (runTrial config taskOptions maxCost tracker script).2.totalCost
          = tracker.totalCost + sumCost script.collected)
  ∧ (script.body ≠ .completes →
        (runTrial config taskOptions maxCost tracker script).1.usage = zeroUsage
      ∧ (runTrial config taskOptions maxCost tracker script).1.costUsd = 0
      ∧ (runTrial config taskOptions maxCost tracker script).2.totalCost
          = tracker.totalCost) := by
  unfold runTrial
  rw [hno]
  constructor
  · intro hb
    rw [hb]
    exact ⟨rfl, rfl, rfl⟩
  · intro hb
    match hbody : script.body with
    | .completes => exact absurd hbody hb
    | .throwsExpectation gr tag => exact ⟨rfl, rfl, by simp⟩
    | .throwsOther msg => exact ⟨rfl, rfl, by simp⟩

/-- Witness for C8 (amended): a completing trial with one usage-carrying
grader result reports that usage and cost and pushes the cost onto the
tracker; the throwing counterpart reports zero. -/
theorem runTrial_usage_aggregation_witness :
    ((runTrial {} {} none { totalCost := 0, exceeded := false }
        { body := .completes, collected := [judgeUsageGR], elapsed := 5 }).1.usage
      = sumUsage [judgeUsageGR])
    ∧ ((runTrial {} {} none { totalCost := 0, exceeded := false }
        { body := .throwsOther "boom", collected := [judgeUsageGR], elapsed := 5 }).1.costUsd
      = 0) := by
  constructor
  · exact ((runTrial_usage_aggregation {} {} none { totalCost := 0, exceeded := false }
      { body := .completes, collected := [judgeUsageGR], elapsed := 5 } rfl).1 rfl).1
  · exact ((runTrial_usage_aggregation {} {} none { totalCost := 0, exceeded := false }
      { body := .throwsOther "boom", collected := [judgeUsageGR], elapsed := 5 } rfl).2
      (by decide)).2.1

/-- C5: evaluating the code at the claim's input shows the opposite of the
claim.  `Expect.not` flips the stored `_toolCalls` view, and the `toolCalls`
getter flips again when `negated` is set, so `e.not.toolCalls` is a
NON-negated view: on a non-empty tool-call list `toHaveBeenCalled()` passes
(pushes `pass = true`, throws nothing), and on an empty list it fails —
both contrary to the claimed negated behaviour. -/
theorem not_toolCalls_double_flip :
    (∀ r : ChatResult, ((Expect.make r).negate.toolCalls).negated = false)
  ∧ (((Expect.make chatWithToolCall).negate.toolCalls).toHaveBeenCalled.pushed.pass
      = true)
  ∧ (((Expect.make chatWithToolCall).negate.toolCalls).toHaveBeenCalled.thrown.isSome
      = false)
  ∧ (((Expect.make chatNoToolCalls).negate.toolCalls).toHaveBeenCalled.pushed.pass
      = false)
  ∧ (((Expect.make chatNoToolCalls).negate.toolCalls).toHaveBeenCalled.thrown.isSome
      = true) := by
  exact ⟨fun r => rfl, rfl, rfl, rfl, rfl⟩

/-- C9 counterexample: with only "anthropic" configured and the task naming
the unknown judge provider "openai", context creation does NOT throw — it
returns successfully, silently falling back to the AI provider for the
judge. -/
theorem createEvalContext_unknown_judge_provider_falls_back :
    createEvalContext ["anthropic"] {}
        { ai := some aiConfigSample, judge := some judgeConfigSample }
      = .ok { aiConfig := aiConfigSample, providerName := "anthropic"
              judgeConfig := judgeConfigSample, judgeProviderName := "anthropic" } := by
  rfl

/-- C9 (amended): AI config resolves task-level over suite-level and context
creation fails synchronously when neither is present or when the AI config
names an unconfigured provider; the judge config falls back task judge,
then suite judge, then the AI config itself; but an unknown judge provider
name does NOT throw — the judge provider silently falls back to the AI
provider. -/
theorem createEvalContext_resolution (providers : List String)
    (so : SuiteOptions) (eo : EvalOptions) :
    (eo.ai = none → so.ai = none →
        createEvalContext providers so eo
          = .error "No AI provider configured. Use ai: anthropic(\"model\") or ai: openai(\"model\") in describe() options.")
  ∧ (∀ a, eo.ai.orElse (fun _ => so.ai) = some a →
        providers.contains a.provider = false →
        createEvalContext providers so eo
          = .error ("Provider \"" ++ a.provider
              ++ "\" not configured. Add API key to config or environment."))
  ∧ (∀ a ctx, eo.ai = some a →
        createEvalContext providers so eo = .ok ctx → ctx.aiConfig = a)
  ∧ (∀ a ctx, eo.ai = none → so.ai = some a →
        createEvalContext providers so eo = .ok ctx → ctx.aiConfig = a)
  ∧ (∀ ctx, eo.judge = none → so.judge = none →
        createEvalContext providers so eo = .ok ctx → ctx.judgeConfig = ctx.aiConfig)
  ∧ (∀ ctx, createEvalContext providers so eo = .ok ctx →
        ctx.judgeProviderName
          = (if providers.contains ctx.judgeConfig.provider then
              ctx.judgeConfig.provider
            else ctx.aiConfig.provider)) := by
  refine ⟨?_, ?_, ?_, ?_, ?_, ?_⟩
  · intro h1 h2
    simp [createEvalContext, h1, h2, Option.orElse]
  · intro a ha hc
    simp only [createEvalContext, ha, hc, Bool.false_eq_true, if_false]
  · intro a ctx ha hok
    obtain ⟨a2, hai, _, hctx, _⟩ := createEvalContext_ok_inv providers so eo ctx hok
    have h2 : some a = some a2 := by
      rw [ha] at hai
      exact hai
    cases h2
    exact hctx
  · intro a ctx hea hsa hok
    obtain ⟨a2, hai, _, hctx, _⟩ := createEvalContext_ok_inv providers so eo ctx hok
    rw [hea] at hai
    have h3 : so.ai = some a2 := hai
    have h2 : some a = some a2 := hsa.symm.trans h3
    cases h2
    exact hctx
  · intro ctx hej hsj hok
    obtain ⟨a2, hai, _, hctx, _, hjc, _⟩ :=
      createEvalContext_ok_inv providers so eo ctx hok
    have hj : eo.judge.orElse (fun _ => so.judge) = none := by
      rw [hej]
      exact hsj
    rw [hj] at hjc
    rw [hctx]
    exact hjc
  · intro ctx hok
    obtain ⟨a2, hai, _, hctx, _, hjc, hjp⟩ :=
      createEvalContext_ok_inv providers so eo ctx hok
    rw [hctx]
    exact hjp

/-- Witness for C9 (amended): missing AI config at both levels errors; a
configured judge falls back to the AI provider when its own provider is
unknown (concrete resolution). -/
theorem createEvalContext_resolution_witness :
    (createEvalContext ["anthropic"] {} {}
      = .error "No AI provider configured. Use ai: anthropic(\"model\") or ai: openai(\"model\") in describe() options.")
    ∧ ({ aiConfig := aiConfigSample, providerName := "anthropic"
         judgeConfig := judgeConfigSample
         judgeProviderName := "anthropic" : ResolvedContext }.judgeProviderName
      = (if (["anthropic"] : List String).contains judgeConfigSample.provider then
          judgeConfigSample.provider
        else aiConfigSample.provider)) := by
  constructor
  · exact (createEvalContext_resolution ["anthropic"] {} {}).1 rfl rfl
  · exact (createEvalContext_resolution ["anthropic"] {}
      { ai := some aiConfigSample, judge := some judgeConfigSample }).2.2.2.2.2
      { aiConfig := aiConfigSample, providerName := "anthropic"
        judgeConfig := judgeConfigSample, judgeProviderName := "anthropic" }
      (by rfl)

/-- C1: for every `toPassJudge` call whose judge reply parses to a judgment
with score `s`, the non-negated pass decision is exactly `s ≥ threshold`
(with the default threshold `0.5` when none is given), and the assertion
throws exactly when that comparison fails — the judge's self-reported
`pass` field plays no role in the decision (the right-hand sides below
mention only the score). -/
theorem toPassJudge_gates_on_score_threshold (e : Expect) (he : e.negated = false)
    (thresholdOpt : Option ℚ) (jsonParse : String → Option Judgment)
    (judgeReply : ChatResult) (j : Judgment)
    (hparse : extractJson judgeReply.content >>= jsonParse = some j) :
    ((toPassJudge e thresholdOpt jsonParse judgeReply).pushed.pass
        = decide (j.score ≥ thresholdOpt.getD (1/2)))
  ∧ ((toPassJudge e thresholdOpt jsonParse judgeReply).thrown = none
        ↔ j.score ≥ thresholdOpt.getD (1/2)) := by
  have hj : parseJudgment jsonParse judgeReply.content = j := by
    unfold parseJudgment
    rw [hparse]
  by_cases hge : j.score ≥ thresholdOpt.getD (1/2)
  · constructor
    · simp [toPassJudge, hj, he, hge]
    · simp [toPassJudge, hj, he, hge]
  · constructor
    · simp [toPassJudge, hj, he, hge]
    · simp [toPassJudge, hj, he, hge]

/-- Witness for C1 at the spec's worked example: judge reply
`\x7b"pass":true,"score":0.6,"reason":"ok"\x7d` against threshold `0.8`
fails the assertion (and throws) despite the self-reported `pass: true`. -/
theorem toPassJudge_gates_on_score_threshold_witness :
    (toPassJudge (Expect.make chatSample) (some (4/5)) jsonParseSample
        judgeReplySample).pushed.pass = false
    ∧ (toPassJudge (Expect.make chatSample) (some (4/5)) jsonParseSample
        judgeReplySample).thrown ≠ none := by
  have hparse : extractJson judgeReplySample.content >>= jsonParseSample
      = some judgmentSample := by
    rfl
  have h := toPassJudge_gates_on_score_threshold (Expect.make chatSample) rfl
    (some (4/5)) jsonParseSample judgeReplySample judgmentSample hparse
  have hlt : ¬ (judgmentSample.score ≥ (some ((4:ℚ)/5)).getD (1/2)) := by
    norm_num [judgmentSample]
  constructor
  · rw [h.1]
    simpa using hlt
  · intro hc
    exact hlt (h.2.mp hc)

/-- C6: when no JSON object can be extracted from the judge reply or parsing
it fails, `toPassJudge` synthesizes the failing judgment
`pass := false, score := 0, reason := "Failed to parse judge response: " ++ raw`,
pushes a grader result scored 0 whose reason carries that text, fails the
(non-negated, positively-thresholded) assertion, and the only exception that
can leave `toPassJudge` is the typed assertion error — never a raw parse
error. -/
theorem toPassJudge_parse_failure_degrades (e : Expect) (thresholdOpt : Option ℚ)
    (jsonParse : String → Option Judgment) (judgeReply : ChatResult)
    (hfail : extractJson judgeReply.content >>= jsonParse = none) :
    parseJudgment jsonParse judgeReply.content
      = { pass := false, score := 0
          reason := "Failed to parse judge response: " ++ judgeReply.content }
  ∧ (toPassJudge e thresholdOpt jsonParse judgeReply).pushed.score = some 0
  ∧ (∃ p, (toPassJudge e thresholdOpt jsonParse judgeReply).pushed.reason
        = p ++ ("Failed to parse judge response: " ++ judgeReply.content))
  ∧ (e.negated = false → 0 < thresholdOpt.getD (1/2) →
        (toPassJudge e thresholdOpt jsonParse judgeReply).pushed.pass = false
        ∧ (toPassJudge e thresholdOpt jsonParse judgeReply).thrown.isSome = true)
  ∧ (∀ msg, (toPassJudge e thresholdOpt jsonParse judgeReply).thrown
        ≠ some (.otherError msg)) := by
  have hj : parseJudgment jsonParse judgeReply.content
      = { pass := false, score := 0
          reason := "Failed to parse judge response: " ++ judgeReply.content } := by
    unfold parseJudgment
    rw [hfail]
  refine ⟨hj, ?_, ?_, ?_, ?_⟩
  · simp [toPassJudge, hj]
  · by_cases hneg : e.negated = true <;>
      · simp [toPassJudge, hneg, hj]
        split <;> exact ⟨_, rfl⟩
  · intro hne ht
    have hnge : ¬ ((parseJudgment jsonParse judgeReply.content).score
        ≥ thresholdOpt.getD (1/2)) := by
      rw [hj]
      simpa using ht
    have hlt := lt_of_not_ge hnge
    constructor
    · simp [toPassJudge, hne, hnge]
      simpa using hlt
    · simp [toPassJudge, hne, hnge]
      simpa using hlt
  · intro msg hc
    simp only [toPassJudge] at hc
    by_cases hp : (if e.negated = true then
        !decide ((parseJudgment jsonParse judgeReply.content).score
          ≥ thresholdOpt.getD (1/2))
      else decide ((parseJudgment jsonParse judgeReply.content).score
          ≥ thresholdOpt.getD (1/2))) = true
    · rw [if_pos hp] at hc
      cases hc
    · rw [if_neg hp] at hc
      cases hc

/-- Witness for C6: a judge replying "I refuse to answer." yields exactly the
synthesized judgment and a failing pushed result under the default
threshold. -/
theorem toPassJudge_parse_failure_degrades_witness :
    parseJudgment jsonParseNone badJudgeReply.content
      = { pass := false, score := 0
          reason := "Failed to parse judge response: I refuse to answer." }
    ∧ (toPassJudge (Expect.make chatSample) none jsonParseNone
        badJudgeReply).pushed.pass = false := by
  have h := toPassJudge_parse_failure_degrades (Expect.make chatSample) none
    jsonParseNone badJudgeReply rfl
  constructor
  · rw [h.1]
    rfl
  · exact (h.2.2.2.1 rfl (by norm_num)).1

/-- C7: the structural matcher's contract (totality of `matchValue` models
"never throws").  `objectContaining` rejects non-objects and consults only
the expected keys (an extra actual binding on a key the expected fields do
not mention never changes the verdict); `arrayContaining` demands an array
and an order-free existential match for every expected item;
`stringMatching` only ever accepts strings; plain expected arrays demand
same length with element-wise recursive matching; plain expected objects
ignore extra actual keys; primitives compare by strict equality. -/
theorem matchValue_structural_spec :
    (∀ (v : JSValue) (fs : List (String × EValue)), v.isObjLike = false →
        matchValue v (.matcher (.objectContaining fs)) = false)
  ∧ (∀ (afs : List (String × JSValue)) (fs : List (String × EValue))
        (k : String) (w : JSValue), k ∉ fs.map Prod.fst →
        matchValue (.obj ((k, w) :: afs)) (.matcher (.objectContaining fs))
          = matchValue (.obj afs) (.matcher (.objectContaining fs)))
  ∧ (∀ (v : JSValue) (items : List EValue),
        matchValue v (.matcher (.arrayContaining items)) = true
          ↔ ∃ xs, v = .arr xs ∧ ∀ it ∈ items, ∃ a ∈ xs, matchValue a it = true)
  ∧ (∀ (v : JSValue) (t : String → Bool),
        matchValue v (.matcher (.stringMatching t)) = true → ∃ s, v = .str s)
  ∧ (∀ (xs : List JSValue) (es : List EValue),
        matchValue (.arr xs) (.arr es) = true
          ↔ List.Forall₂ (fun a e => matchValue a e = true) xs es)
  ∧ (∀ (v : JSValue) (es : List EValue), (∀ xs, v ≠ .arr xs) →
        matchValue v (.arr es) = false)
  ∧ (∀ (v : JSValue) (fs : List (String × EValue)), v.isObjLike = false →
        matchValue v (.obj fs) = false)
  ∧ (∀ (afs : List (String × JSValue)) (fs : List (String × EValue))
        (k : String) (w : JSValue), k ∉ fs.map Prod.fst →
        matchValue (.obj ((k, w) :: afs)) (.obj fs) = matchValue (.obj afs) (.obj fs))
  ∧ (∀ (v : JSValue) (q : ℚ), matchValue v (.num q) = true ↔ v = .num q)
  ∧ (∀ (v : JSValue) (s : String), matchValue v (.str s) = true ↔ v = .str s)
  ∧ (∀ (v : JSValue) (b : Bool), matchValue v (.bool b) = true ↔ v = .bool b)
  ∧ (∀ v : JSValue, matchValue v .null = true ↔ v = .null)
  ∧ (∀ v : JSValue, matchValue v .undef = true ↔ v = .undef) := by
  refine ⟨?_, ?_, ?_, ?_, ?_, ?_, ?_, ?_, ?_, ?_, ?_, ?_, ?_⟩
  · intro v fs h
    simp [matchValue, matchMatcher, h]
  · intro afs fs k w hk
    simp [matchValue, matchMatcher, JSValue.isObjLike,
      matchFields_extra_key afs fs k w hk]
  · intro v items
    cases v <;> simp [matchValue, matchMatcher, matchItems_iff]
  · intro v t
    cases v <;> simp [matchValue, matchMatcher]
  · intro xs es
    simp only [matchValue, Bool.and_eq_true, beq_iff_eq]
    constructor
    · rintro ⟨hlen, hmp⟩
      exact (matchPairs_iff xs es).mp hmp
    · intro h
      exact ⟨h.length_eq, (matchPairs_iff xs es).mpr h⟩
  · intro v es h
    cases v <;> first | exact absurd rfl (h _) | simp [matchValue]
  · intro v fs h
    simp [matchValue, h]
  · intro afs fs k w hk
    simp [matchValue, JSValue.isObjLike,
      matchFields_extra_key afs fs k w hk]
  · intro v q
    cases v <;> simp [matchValue]
  · intro v s
    cases v <;> simp [matchValue]
  · intro v b
    cases v <;> simp [matchValue]
  · intro v
    cases v <;> simp [matchValue]
  · intro v
    cases v <;> simp [matchValue]

/-- Witness for C7 at concrete values: `objectContaining` rejects a number,
ignores an extra actual key, a plain expected array rejects a string, and a
plain expected object rejects a boolean. -/
theorem matchValue_structural_spec_witness :
    matchValue (.num 3) (.matcher (.objectContaining [])) = false
  ∧ matchValue (.obj [("extra", .num 9), ("a", .num 2)])
        (.matcher (.objectContaining [("a", .num 2)]))
      = matchValue (.obj [("a", .num 2)]) (.matcher (.objectContaining [("a", .num 2)]))
  ∧ matchValue (.str "x") (.arr []) = false
  ∧ matchValue (.bool true) (.obj []) = false := by
  refine ⟨?_, ?_, ?_, ?_⟩
  · exact matchValue_structural_spec.1 (.num 3) [] rfl
  · exact matchValue_structural_spec.2.1 [("a", .num 2)] [("a", .num 2)]
      "extra" (.num 9) (by decide)
  · exact matchValue_structural_spec.2.2.2.2.2.1 (.str "x") []
      (fun xs h => JSValue.noConfusion h)
  · exact matchValue_structural_spec.2.2.2.2.2.2.1 (.bool true) [] rfl

end AgentEval
